import Mathlib

/-!
# Verification of `TextExporter` (webtoon_downloader/core/webtoon/exporter.py)

A shallow embedding of the exporter's data model and operations.  File
contents and paths are modelled as `List Char`; the filesystem is modelled
by an oracle `fs : List Char → Option FsError` that says, for a target
path, whether writing there fails (covering directory creation and the
write itself), and each operation returns the updated aggregate, the list
of successful write events (in order), and the first error, if any.
`json.dumps(data, sort_keys=True, indent=4)` is embedded faithfully,
including Python's `ensure_ascii` string escaping and its numeric sorting
of the integer chapter keys.
-/

/-- Left brace character, written by code point. -/
def lb : Char := '\x7b'

/-- Right brace character, written by code point. -/
def rb : Char := '\x7d'

/-- Four spaces: one JSON indentation level (`indent=4`). -/
def ind4 : List Char := [' ', ' ', ' ', ' ']

/-- Eight spaces: two JSON indentation levels. -/
def ind8 : List Char := ind4 ++ ind4

/-- Twelve spaces: three JSON indentation levels. -/
def ind12 : List Char := ind8 ++ ind4

/-- The decimal digit character for `n < 10` (`'0'` used as a default). -/
def digitChar (n : Nat) : Char :=
  if n = 1 then '1' else if n = 2 then '2' else if n = 3 then '3'
  else if n = 4 then '4' else if n = 5 then '5' else if n = 6 then '6'
  else if n = 7 then '7' else if n = 8 then '8' else if n = 9 then '9' else '0'

/-- Numeric value of a decimal digit character. -/
def digitVal (c : Char) : Nat := c.toNat - 48

/-- Whether `c` is a decimal digit `'0'..'9'`. -/
def isDig (c : Char) : Bool := 48 ≤ c.toNat && c.toNat ≤ 57

/-- Decimal digits of a positive number, most significant first.  The first
argument is fuel; `natToCharsAux n n` is fully computed since `n / 10 < n`. -/
def natToCharsAux : Nat → Nat → List Char
  | 0, _ => []
  | fuel + 1, n => if n = 0 then [] else natToCharsAux fuel (n / 10) ++ [digitChar (n % 10)]

/-- Decimal representation of a natural number (Python `str` on a
non-negative `int`): minimal digits, no leading zeros, `0 ↦ "0"`. -/
def natToChars (n : Nat) : List Char := if n = 0 then ['0'] else natToCharsAux n n

/-- Decimal representation of an integer (Python `str(int)`). -/
def intToChars (i : Int) : List Char :=
  if i < 0 then '-' :: natToChars (-i).toNat else natToChars i.toNat

/-- Fold decimal digit characters into a number, accumulator style. -/
def digitsToNatAux : List Char → Nat → Nat
  | [], acc => acc
  | c :: cs, acc => digitsToNatAux cs (10 * acc + digitVal c)

/-- Number denoted by a string of decimal digit characters. -/
def digitsToNat (ds : List Char) : Nat := digitsToNatAux ds 0

/-- Split a leading run of decimal digits off a character list. -/
def takeDigits : List Char → List Char × List Char
  | [] => ([], [])
  | c :: rest =>
    if isDig c then
      let p := takeDigits rest
      (c :: p.1, p.2)
    else ([], c :: rest)

/-! ## Data model (`ExportChapterData`, `ExportData`, `ChapterInfo`) -/

/-- Per-chapter export record: `{title, notes}` (`ExportChapterData` TypedDict). -/
structure ExportChapterData where
  title : List Char
  notes : List Char
deriving DecidableEq, Repr

/-- The accumulating aggregate (`ExportData` TypedDict): `chapters` is the
insertion-ordered dictionary from chapter number to record, `summary` the
series summary.  The Python `dict` is modelled as an association list in
insertion order with unique keys. -/
structure ExportData where
  chapters : List (Int × ExportChapterData)
  summary : List Char
deriving DecidableEq, Repr

/-- Modelled from the spec: the chapter descriptor (`ChapterInfo` from
`webtoon_downloader.core.webtoon.models`, not under `src/`) carries at
least a unique integer `number` and a `title` string; only those two
fields are read by the exporter. -/
structure ChapterInfo where
  number : Int
  title : List Char
deriving DecidableEq, Repr

/-- Python `dict` update `d[k] = v`: replace in place if `k` is present
(keeping its position), otherwise append at the end. -/
def dictInsert (k : Int) (v : ExportChapterData) :
    List (Int × ExportChapterData) → List (Int × ExportChapterData)
  | [] => [(k, v)]
  | (k', v') :: rest => if k' = k then (k, v) :: rest else (k', v') :: dictInsert k v rest

/-- Dictionary lookup `d[k]` on the association-list model. -/
def lookupChapter (k : Int) : List (Int × ExportChapterData) → Option ExportChapterData
  | [] => none
  | (k', v) :: rest => if k' = k then some v else lookupChapter k rest

/-- The key list of a chapters dictionary. -/
def chapterKeys (l : List (Int × ExportChapterData)) : List Int := l.map Prod.fst

/-! ## Exporter configuration -/

/-- `TextExporterFormat = Literal["text", "json", "all"]`. -/
inductive TextExporterFormat where
  | text
  | json
  | all
deriving DecidableEq, Repr

/-- The exporter's immutable configuration: the export format and the
resolved destination directory (`self._dest`). -/
structure TextExporter where
  export_format : TextExporterFormat
  dest : List Char
deriving DecidableEq, Repr

/-- `self._write_json = self.export_format in ["json", "all"]`. -/
def TextExporter.write_json (e : TextExporter) : Bool :=
  match e.export_format with
  | .json => true
  | .all => true
  | .text => false

/-- `self._write_text = self.export_format in ["text", "all"]`. -/
def TextExporter.write_text (e : TextExporter) : Bool :=
  match e.export_format with
  | .text => true
  | .all => true
  | .json => false

/-- `__post_init__`: `self._data = {"chapters": {}, "summary": ""}`. -/
def initExportData : ExportData := ⟨[], []⟩

/-! ## Filesystem model -/

/-- File opening mode of `_aio_write` (`"w"` overwrite / `"a"` append). -/
inductive WriteMode where
  | overwrite
  | append
deriving DecidableEq, Repr

/-- One successful file write: target path, the full payload actually
written (`data + end`), and the opening mode. -/
structure WriteEvent where
  target : List Char
  payload : List Char
  mode : WriteMode
deriving DecidableEq, Repr

/-- A filesystem error (e.g. `PermissionError`, `OSError`) raised while
creating the parent directory or writing the target; carries the path and
a message, and is propagated by value. -/
structure FsError where
  path : List Char
  msg : List Char
deriving DecidableEq, Repr

/-- Filesystem oracle: `fs target` is the error raised when writing to
`target` (directory creation included), or `none` when the write succeeds. -/
def noFail : List Char → Option FsError := fun _ => none

/-- `Path(directory) / name`: path join with a single separator. -/
def pathJoin (dir name : List Char) : List Char := dir ++ '/' :: name

/-- `directory = Path(directory) if directory else self._dest`: Python
treats `None` and the empty string as falsy. -/
def resolveDir (e : TextExporter) (directory : Option (List Char)) : List Char :=
  match directory with
  | none => e.dest
  | some d => if d = [] then e.dest else d

/-- `not summary`: true for `None` and for the empty string. -/
def strFalsy : Option (List Char) → Bool
  | none => true
  | some s => s.isEmpty

/-- `_aio_write(target, data, mode, end)`: ensures the parent directory
exists then writes `data + end` to `target`.  Under the oracle it either
produces the write event or raises the oracle's error unchanged. -/
def aio_write (fs : List Char → Option FsError) (target data : List Char)
    (mode : WriteMode) (endStr : List Char) : Except FsError WriteEvent :=
  match fs target with
  | some err => .error err
  | none => .ok ⟨target, data ++ endStr, mode⟩

/-- Python left zero-fill of a digit string to width `w`. -/
def leftPadZeros (w : Nat) (s : List Char) : List Char :=
  List.replicate (w - s.length) '0' ++ s

/-- `f"{n:0{p}d}"`: decimal representation of `n` zero-filled to width `p`;
for a negative number the sign comes first and counts toward the width. -/
def formatZeroPad (n : Int) (p : Nat) : List Char :=
  if n < 0 then '-' :: leftPadZeros (p - 1) (natToChars (-n).toNat)
  else leftPadZeros p (natToChars n.toNat)

/-! ## Operations

Each operation takes the configuration, the filesystem oracle and the
current aggregate, and returns the new aggregate, the successful write
events in order, and the first uncaught filesystem error, if any.  The
configuration itself is never part of the result because the source never
assigns any field except `self._data` after `__post_init__`. -/

/-- `add_series_texts(summary, directory)`. -/
def TextExporter.add_series_texts (e : TextExporter) (fs : List Char → Option FsError)
    (st : ExportData) (summary : Option (List Char)) (directory : Option (List Char)) :
    ExportData × List WriteEvent × Option FsError :=
  if strFalsy summary || !e.write_text then (st, [], none)
  else
    let s := summary.getD []
    let st' : ExportData := { st with summary := s }
    let dir := resolveDir e directory
    match aio_write fs (pathJoin dir ("summary.txt".data)) s .overwrite ['\n'] with
    | .error err => (st', [], some err)
    | .ok ev => (st', [ev], none)

/-- `add_chapter_details(chapter, notes, padding, directory)`. -/
def TextExporter.add_chapter_details (e : TextExporter) (fs : List Char → Option FsError)
    (st : ExportData) (chapter : ChapterInfo) (notes : List Char) (padding : Nat)
    (directory : Option (List Char)) : ExportData × List WriteEvent × Option FsError :=
  let st' : ExportData :=
    { st with chapters := dictInsert chapter.number ⟨chapter.title, notes⟩ st.chapters }
  if !e.write_text then (st', [], none)
  else
    let dir := resolveDir e directory
    let pref := formatZeroPad chapter.number padding
    match aio_write fs (pathJoin dir (pref ++ "_title.txt".data)) chapter.title .overwrite ['\n'] with
    | .error err => (st', [], some err)
    | .ok ev1 =>
      if notes = [] then (st', [ev1], none)
      else
        match aio_write fs (pathJoin dir (pref ++ "_notes.txt".data)) notes .overwrite ['\n'] with
        | .error err => (st', [ev1], some err)
        | .ok ev2 => (st', [ev1, ev2], none)

/-! ## `json.dumps(self._data, sort_keys=True, indent=4)`

Python's encoder with `sort_keys=True` sorts each dictionary's items
before emitting them: the integer chapter keys are compared numerically
and only then rendered with `str`, while the top-level keys
(`"chapters" < "summary"`) and the record keys (`"notes" < "title"`)
are string-compared.  `ensure_ascii=True` (the default) escapes `"`,
`\` and every character outside `0x20..0x7e`, using the short escapes
`\b \t \n \f \r` and lowercase `\uXXXX` otherwise, with surrogate pairs
for code points above `0xFFFF`. -/

/-- Lowercase hexadecimal digit character for `n < 16`. -/
def hexChar (n : Nat) : Char :=
  if n < 10 then digitChar n
  else if n = 10 then 'a' else if n = 11 then 'b' else if n = 12 then 'c'
  else if n = 13 then 'd' else if n = 14 then 'e' else 'f'

/-- Four lowercase hex digits of `n < 0x10000`, most significant first. -/
def hex4 (n : Nat) : List Char :=
  [hexChar (n / 4096 % 16), hexChar (n / 256 % 16), hexChar (n / 16 % 16), hexChar (n % 16)]

/-- Python `json` escaping of one character (`ensure_ascii=True`). -/
def escapeChar (c : Char) : List Char :=
  if c = '\\' then ['\\', '\\']
  else if c = '"' then ['\\', '"']
  else if c = '\n' then ['\\', 'n']
  else if c = '\r' then ['\\', 'r']
  else if c = '\t' then ['\\', 't']
  else if c.toNat = 8 then ['\\', 'b']
  else if c.toNat = 12 then ['\\', 'f']
  else if 32 ≤ c.toNat && c.toNat ≤ 126 then [c]
  else if c.toNat < 65536 then '\\' :: 'u' :: hex4 c.toNat
  else
    '\\' :: 'u' :: hex4 (55296 + (c.toNat - 65536) / 1024) ++
      '\\' :: 'u' :: hex4 (56320 + (c.toNat - 65536) % 1024)

/-- Python `json` escaping of a whole string (without the quotes). -/
def escapeList : List Char → List Char
  | [] => []
  | c :: cs => escapeChar c ++ escapeList cs

/-- Items of the chapters dict sorted by Python's `sorted`: numeric
comparison of the integer keys (keys are unique, so the records are
never compared). -/
def sortByKey (l : List (Int × ExportChapterData)) : List (Int × ExportChapterData) :=
  l.insertionSort (fun p q => p.1 ≤ q.1)

/-- Literal layout from the start of one chapter entry up to and
including the opening quote of its key: `"\n        \""`. -/
def chunkA : List Char := '\n' :: ind8 ++ ['"']

/-- Literal layout between a chapter key and its notes value:
`"\": \x7b\n            \"notes\": \""`. -/
def chunkB : List Char :=
  '"' :: ':' :: ' ' :: lb :: '\n' :: ind12 ++ ("\"notes\": ".data) ++ ['"']

/-- Literal layout between the notes value and the title value:
`",\n            \"title\": \""`. -/
def chunkC : List Char := ',' :: '\n' :: ind12 ++ ("\"title\": ".data) ++ ['"']

/-- Literal layout closing one chapter entry: `"\n        \x7d"`. -/
def chunkD : List Char := '\n' :: ind8 ++ [rb]

/-- One chapter entry of the indented JSON, newline and indentation
included:
`\n        "<key>": \x7b\n            "notes": "<notes>",\n            "title": "<title>"\n        \x7d`. -/
def entryChars (k : Int) (v : ExportChapterData) : List Char :=
  chunkA ++ intToChars k ++ chunkB ++ escapeList v.notes ++ '"' ::
    (chunkC ++ escapeList v.title ++ '"' :: chunkD)

/-- The chapter entries joined by `","` (the newline that follows the
comma is part of the next entry's `chunkA`). -/
def entriesChars : List (Int × ExportChapterData) → List Char
  | [] => []
  | [e] => entryChars e.1 e.2
  | e :: es => entryChars e.1 e.2 ++ ',' :: entriesChars es

/-- The serialized chapters object: `\x7b\x7d` when empty, otherwise the
sorted entries wrapped in braces with the closing brace at indent 4. -/
def chaptersChars (l : List (Int × ExportChapterData)) : List Char :=
  match sortByKey l with
  | [] => [lb, rb]
  | es => lb :: entriesChars es ++ '\n' :: ind4 ++ [rb]

/-- Document layout from the opening brace up to and including the colon
after `"chapters"`: `"\x7b\n    \"chapters\": "`. -/
def chunkDocA : List Char := lb :: '\n' :: ind4 ++ ("\"chapters\": ".data)

/-- Document layout between the chapters object and the summary value:
`",\n    \"summary\": \""`. -/
def chunkDocB : List Char := ',' :: '\n' :: ind4 ++ ("\"summary\": ".data) ++ ['"']

/-- Document layout closing the JSON object: `"\n\x7d"`. -/
def chunkDocC : List Char := ['\n', rb]

/-- `json.dumps(self._data, sort_keys=True, indent=4)` on the aggregate. -/
def jsonDumps (st : ExportData) : List Char :=
  chunkDocA ++ chaptersChars st.chapters ++ chunkDocB ++ escapeList st.summary ++ '"' :: chunkDocC

/-- Lexicographic (string) order on character lists, by code point. -/
def lexLeChars : List Char → List Char → Bool
  | [], _ => true
  | _ :: _, [] => false
  | a :: as, b :: bs => a.toNat < b.toNat || (a = b && lexLeChars as bs)

/-- Chapter items sorted by the lexicographic order of the rendered keys.
This follows the spec's words ("keys sorted lexicographically"), for
comparison with the numeric sorting the source performs. -/
def sortByKeyLex (l : List (Int × ExportChapterData)) : List (Int × ExportChapterData) :=
  l.insertionSort (fun p q => lexLeChars (intToChars p.1) (intToChars q.1) = true)

/-- The chapters object with the keys sorted lexicographically as
strings; follows the spec's words, not the source. -/
def chaptersCharsSpecLex (l : List (Int × ExportChapterData)) : List Char :=
  match sortByKeyLex l with
  | [] => [lb, rb]
  | es => lb :: entriesChars es ++ '\n' :: ind4 ++ [rb]

/-- The serialized aggregate with chapter keys sorted lexicographically
as strings; follows the spec's words ("keys sorted lexicographically"),
for comparison with `jsonDumps`. -/
def jsonDumpsSpecLex (st : ExportData) : List Char :=
  chunkDocA ++ chaptersCharsSpecLex st.chapters ++ chunkDocB ++
    escapeList st.summary ++ '"' :: chunkDocC

/-- `write_data(directory)`. -/
def TextExporter.write_data (e : TextExporter) (fs : List Char → Option FsError)
    (st : ExportData) (directory : Option (List Char)) :
    ExportData × List WriteEvent × Option FsError :=
  if !e.write_json then (st, [], none)
  else
    let dir := resolveDir e directory
    let data := jsonDumps st
    match aio_write fs (pathJoin dir ("info.json".data)) data .overwrite [] with
    | .error err => (st, [], some err)
    | .ok ev => (st, [ev], none)

/-! ## A JSON parser for the emitted document

`parseInfo` recovers the chapter items and the summary from the exact
layout `json.dumps(..., sort_keys=True, indent=4)` produces, undoing the
string escaping (as `json.loads` does, surrogate pairs included).  It is
the inverse used to state the round-trip property. -/

/-- Value of a lowercase/uppercase hexadecimal digit character. -/
def hexVal (c : Char) : Nat :=
  if isDig c then digitVal c
  else if 97 ≤ c.toNat && c.toNat ≤ 102 then c.toNat - 87
  else if 65 ≤ c.toNat && c.toNat ≤ 70 then c.toNat - 55
  else 0

/-- The character denoted by a two-character escape `\e` (the `BACKSLASH`
table of `json.loads`). -/
def unescapeShort (e : Char) : Option Char :=
  if e = '"' then some '"'
  else if e = '\\' then some '\\'
  else if e = '/' then some '/'
  else if e = 'b' then some (Char.ofNat 8)
  else if e = 'f' then some (Char.ofNat 12)
  else if e = 'n' then some '\n'
  else if e = 'r' then some '\r'
  else if e = 't' then some '\t'
  else none

/-- Value of four hexadecimal digit characters, most significant first. -/
def parseHex4 (a b c d : Char) : Nat :=
  hexVal a * 4096 + hexVal b * 256 + hexVal c * 16 + hexVal d

/-- Decode one escape sequence, positioned just after the backslash:
either `uXXXX` (recombining a surrogate pair, as `json.loads` does) or a
two-character escape.  Returns the decoded character and the remainder. -/
def parseEscape : List Char → Option (Char × List Char)
  | [] => none
  | e :: rest2 =>
    if e = 'u' then
      match rest2 with
      | a :: b :: c2 :: d :: rest3 =>
        if 55296 ≤ parseHex4 a b c2 d ∧ parseHex4 a b c2 d ≤ 56319 then
          match rest3 with
          | bs :: u2 :: a2 :: b2 :: c3 :: d2 :: rest4 =>
            if (bs = '\\' ∧ u2 = 'u') ∧
                56320 ≤ parseHex4 a2 b2 c3 d2 ∧ parseHex4 a2 b2 c3 d2 ≤ 57343 then
              some (Char.ofNat
                (65536 + (parseHex4 a b c2 d - 55296) * 1024 + (parseHex4 a2 b2 c3 d2 - 56320)),
                rest4)
            else none
          | _ => none
        else some (Char.ofNat (parseHex4 a b c2 d), rest3)
      | _ => none
    else
      match unescapeShort e with
      | some ch => some (ch, rest2)
      | none => none

/-- Parse a JSON string body up to and including the closing quote,
undoing the escapes; the fuel bounds the number of decoded characters. -/
def parseJStringF : Nat → List Char → Option (List Char × List Char)
  | 0, _ => none
  | fuel + 1, input =>
    match input with
    | [] => none
    | c :: rest =>
      if c = '"' then some ([], rest)
      else if c = '\\' then
        match parseEscape rest with
        | some (ch, rest2) =>
          match parseJStringF fuel rest2 with
          | some (s, r) => some (ch :: s, r)
          | none => none
        | none => none
      else
        match parseJStringF fuel rest with
        | some (s, r) => some (c :: s, r)
        | none => none

/-- Parse a JSON string body up to and including the closing quote,
undoing the escapes; returns the decoded characters and the remainder
after the closing quote. -/
def parseJString (input : List Char) : Option (List Char × List Char) :=
  parseJStringF input.length input

/-- Consume an exact literal prefix, returning the remainder. -/
def expects : List Char → List Char → Option (List Char)
  | [], input => some input
  | _ :: _, [] => none
  | c :: cs, d :: rest => if d = c then expects cs rest else none

/-- Parse a decimal integer (optional leading minus) off the input. -/
def parseKey (input : List Char) : Option (Int × List Char) :=
  if input.head? = some '-' then
    let p := takeDigits input.tail
    if p.1 = [] then none else some (-(digitsToNat p.1 : Int), p.2)
  else
    let p := takeDigits input
    if p.1 = [] then none else some ((digitsToNat p.1 : Int), p.2)

/-- Parse one chapter entry (layout `entryChars`): key, then notes,
then title. -/
def parseEntry (input : List Char) : Option ((Int × ExportChapterData) × List Char) :=
  match expects chunkA input with
  | none => none
  | some r1 =>
    match parseKey r1 with
    | none => none
    | some (k, r2) =>
      match expects chunkB r2 with
      | none => none
      | some r3 =>
        match parseJString r3 with
        | none => none
        | some (notes, r4) =>
          match expects chunkC r4 with
          | none => none
          | some (r5) =>
            match parseJString r5 with
            | none => none
            | some (title, r6) =>
              match expects chunkD r6 with
              | none => none
              | some r7 => some ((k, ⟨title, notes⟩), r7)

/-- Parse a nonempty comma-separated run of chapter entries; the fuel
bounds the number of entries. -/
def parseEntriesLoop : Nat → List Char → Option (List (Int × ExportChapterData) × List Char)
  | 0, _ => none
  | fuel + 1, input =>
    match parseEntry input with
    | none => none
    | some (e, rest) =>
      if rest.head? = some ',' then
        match parseEntriesLoop fuel rest.tail with
        | none => none
        | some (es, r) => some (e :: es, r)
      else some ([e], rest)

/-- Parse the chapters object (layout `chaptersChars`). -/
def parseChapters (input : List Char) : Option (List (Int × ExportChapterData) × List Char) :=
  if input.head? = some lb then
    if input.tail.head? = some rb then some ([], input.tail.tail)
    else
      match parseEntriesLoop input.tail.length input.tail with
      | none => none
      | some (es, r) =>
        match expects ('\n' :: ind4 ++ [rb]) r with
        | some r2 => some (es, r2)
        | none => none
  else none

/-- Parse the whole `info.json` document back into the chapter items and
the summary. -/
def parseInfo (input : List Char) : Option (List (Int × ExportChapterData) × List Char) :=
  match expects chunkDocA input with
  | none => none
  | some r1 =>
    match parseChapters r1 with
    | none => none
    | some (chs, r2) =>
      match expects chunkDocB r2 with
      | none => none
      | some r3 =>
        match parseJString r3 with
        | none => none
        | some (summ, r4) =>
          match expects chunkDocC r4 with
          | none => none
          | some r5 => if r5 = [] then some (chs, summ) else none

/-! ## Basic lemmas -/

theorem char_valid_toNat (c : Char) :
    c.toNat < 55296 ∨ (57343 < c.toNat ∧ c.toNat < 1114112) := by
  rcases c.valid with h | ⟨h1, h2⟩
  · left
    simpa [UInt32.lt_def, BitVec.lt_def, Char.toNat] using h
  · right
    constructor
    · simpa [UInt32.lt_def, BitVec.lt_def, Char.toNat] using h1
    · simpa [UInt32.lt_def, BitVec.lt_def, Char.toNat] using h2

theorem char_eq_iff_toNat {a b : Char} : a = b ↔ a.toNat = b.toNat := by
  constructor
  · intro h
    rw [h]
  · intro h
    have := congrArg Char.ofNat h
    simpa using this

theorem expects_append (p rest : List Char) : expects p (p ++ rest) = some rest := by
  induction p with
  | nil => rfl
  | cons c cs ih => simp [expects, ih]

theorem digitChar_spec : ∀ n, n < 10 →
    digitVal (digitChar n) = n ∧ isDig (digitChar n) = true ∧ (n ≠ 0 → digitChar n ≠ '0') := by
  decide

theorem hexChar_spec : ∀ n, n < 16 → hexVal (hexChar n) = n := by
  decide

theorem isDig_ne {c : Char} (h : isDig c = true) : c ≠ '"' ∧ c ≠ '-' ∧ c ≠ '\\' := by
  refine ⟨?_, ?_, ?_⟩ <;> intro hc <;> subst hc <;> exact absurd h (by decide)

theorem digitsToNatAux_append (xs : List Char) (d : Char) (acc : Nat) :
    digitsToNatAux (xs ++ [d]) acc = 10 * digitsToNatAux xs acc + digitVal d := by
  induction xs generalizing acc with
  | nil => rfl
  | cons c cs ih => simp [digitsToNatAux, ih]

theorem natToCharsAux_zero (fuel : Nat) : natToCharsAux fuel 0 = [] := by
  cases fuel <;> rfl

theorem natToCharsAux_spec : ∀ fuel n, 0 < n → n ≤ fuel →
    (∀ c ∈ natToCharsAux fuel n, isDig c = true) ∧ natToCharsAux fuel n ≠ [] ∧
      digitsToNat (natToCharsAux fuel n) = n ∧
      (∀ c, (natToCharsAux fuel n).head? = some c → c ≠ '0') := by
  intro fuel
  induction fuel with
  | zero => intro n hn hle; omega
  | succ fuel ih =>
    intro n hn hle
    have hne : ¬ n = 0 := by omega
    rw [natToCharsAux, if_neg hne]
    by_cases hsmall : n < 10
    · obtain ⟨hdv, hdig, hdz⟩ := digitChar_spec n hsmall
      have h10 : n / 10 = 0 := Nat.div_eq_of_lt hsmall
      have hmod : n % 10 = n := Nat.mod_eq_of_lt hsmall
      rw [h10, natToCharsAux_zero, List.nil_append, hmod]
      refine ⟨?_, by simp, ?_, ?_⟩
      · intro c hc
        simp at hc
        rw [hc]
        exact hdig
      · simp [digitsToNat, digitsToNatAux, hdv]
      · intro c hc
        simp at hc
        rw [← hc]
        exact hdz (by omega)
    · obtain ⟨hdv, hdig, hdz⟩ := digitChar_spec (n % 10) (Nat.mod_lt _ (by omega))
      have hq : 0 < n / 10 := Nat.div_pos (by omega) (by omega)
      have hqle : n / 10 ≤ fuel := by
        have := Nat.div_lt_self hn (by omega : 1 < 10)
        omega
      obtain ⟨ihdig, ihne, ihval, ihhd⟩ := ih (n / 10) hq hqle
      refine ⟨?_, ?_, ?_, ?_⟩
      · intro c hc
        rcases List.mem_append.mp hc with h | h
        · exact ihdig c h
        · simp at h
          rw [h]
          exact hdig
      · simp
      · rw [digitsToNat, digitsToNatAux_append, ← digitsToNat, ihval]
        omega
      · intro c hc
        rw [List.head?_append_of_ne_nil _ ihne] at hc
        exact ihhd c hc

theorem natToChars_spec (n : Nat) :
    (∀ c ∈ natToChars n, isDig c = true) ∧ natToChars n ≠ [] ∧
      digitsToNat (natToChars n) = n ∧
      (n ≠ 0 → ∀ c, (natToChars n).head? = some c → c ≠ '0') := by
  by_cases hn : n = 0
  · subst hn
    refine ⟨by decide, by decide, by decide, by intro h; omega⟩
  · rw [natToChars, if_neg hn]
    obtain ⟨h1, h2, h3, h4⟩ := natToCharsAux_spec n n (by omega) (le_refl n)
    exact ⟨h1, h2, h3, fun _ => h4⟩

theorem takeDigits_append (ds : List Char) (r : List Char)
    (h : ∀ c ∈ ds, isDig c = true) :
    takeDigits (ds ++ '"' :: r) = (ds, '"' :: r) := by
  induction ds with
  | nil =>
    rw [List.nil_append, takeDigits, if_neg (by decide)]
  | cons c cs ih =>
    have hc : isDig c = true := h c (by simp)
    have hcs : ∀ c ∈ cs, isDig c = true := fun c hm => h c (by simp [hm])
    simp [takeDigits, hc, ih hcs]

theorem parseKey_rt (k : Int) (rest : List Char) :
    parseKey (intToChars k ++ '"' :: rest) = some (k, '"' :: rest) := by
  by_cases hk : k < 0
  · rw [intToChars, if_pos hk]
    obtain ⟨hdig, hne, hval, _⟩ := natToChars_spec (-k).toNat
    rw [List.cons_append, parseKey,
      if_pos (show ('-' :: (natToChars (-k).toNat ++ '"' :: rest)).head? = some '-' from rfl),
      List.tail_cons, takeDigits_append _ _ hdig, if_neg hne]
    simp only [Option.some.injEq, Prod.mk.injEq]
    refine ⟨?_, trivial⟩
    rw [hval]
    omega
  · rw [intToChars, if_neg hk]
    obtain ⟨hdig, hne, hval, _⟩ := natToChars_spec k.toNat
    obtain ⟨c, cs, hcons⟩ := List.exists_cons_of_ne_nil hne
    have hcdig : isDig c = true := hdig c (by rw [hcons]; simp)
    rw [parseKey, if_neg ?hcond]
    case hcond =>
      rw [hcons, List.cons_append, List.head?_cons]
      simp only [Option.some.injEq]
      exact (isDig_ne hcdig).2.1
    rw [takeDigits_append _ _ hdig, if_neg hne]
    simp only [Option.some.injEq, Prod.mk.injEq]
    refine ⟨?_, trivial⟩
    rw [hval]
    omega

theorem parseHex4_hex4 (n : Nat) (h : n < 65536) :
    parseHex4 (hexChar (n / 4096 % 16)) (hexChar (n / 256 % 16))
      (hexChar (n / 16 % 16)) (hexChar (n % 16)) = n := by
  rw [parseHex4, hexChar_spec _ (Nat.mod_lt _ (by omega)), hexChar_spec _ (Nat.mod_lt _ (by omega)),
    hexChar_spec _ (Nat.mod_lt _ (by omega)), hexChar_spec _ (Nat.mod_lt _ (by omega))]
  omega

theorem parseJStringF_u (fuel : Nat) (a b c2 d : Char) (tl : List Char)
    (hn : ¬(55296 ≤ parseHex4 a b c2 d ∧ parseHex4 a b c2 d ≤ 56319)) :
    parseJStringF (fuel + 1) ('\\' :: 'u' :: a :: b :: c2 :: d :: tl) =
      match parseJStringF fuel tl with
      | some (s, r) => some (Char.ofNat (parseHex4 a b c2 d) :: s, r)
      | none => none := by
  rw [parseJStringF]
  simp only [parseEscape, if_neg hn]
  rfl

theorem parseJStringF_u2 (fuel : Nat) (a b c2 d a2 b2 c3 d2 : Char) (tl : List Char)
    (h1 : 55296 ≤ parseHex4 a b c2 d ∧ parseHex4 a b c2 d ≤ 56319)
    (h2 : 56320 ≤ parseHex4 a2 b2 c3 d2 ∧ parseHex4 a2 b2 c3 d2 ≤ 57343) :
    parseJStringF (fuel + 1)
        ('\\' :: 'u' :: a :: b :: c2 :: d :: '\\' :: 'u' :: a2 :: b2 :: c3 :: d2 :: tl) =
      match parseJStringF fuel tl with
      | some (s, r) =>
        some (Char.ofNat
          (65536 + (parseHex4 a b c2 d - 55296) * 1024 + (parseHex4 a2 b2 c3 d2 - 56320)) :: s, r)
      | none => none := by
  rw [parseJStringF]
  simp only [parseEscape]
  simp [h1, h2]

theorem parseJStringF_cons (fuel : Nat) (c : Char) (tl : List Char) :
    parseJStringF (fuel + 1) (c :: tl) =
      if c = '"' then some ([], tl)
      else if c = '\\' then
        match parseEscape tl with
        | some (ch, rest2) =>
          match parseJStringF fuel rest2 with
          | some (s, r) => some (ch :: s, r)
          | none => none
        | none => none
      else
        match parseJStringF fuel tl with
        | some (s, r) => some (c :: s, r)
        | none => none := rfl

theorem parseJStringF_step (fuel : Nat) (c : Char) (tl : List Char) :
    parseJStringF (fuel + 1) (escapeChar c ++ tl) =
      match parseJStringF fuel tl with
      | some (s, r) => some (c :: s, r)
      | none => none := by
  by_cases h1 : c = '\\'
  · subst h1; rfl
  by_cases h2 : c = '"'
  · subst h2; rfl
  by_cases h3 : c = '\n'
  · subst h3; rfl
  by_cases h4 : c = '\r'
  · subst h4; rfl
  by_cases h5 : c = '\t'
  · subst h5; rfl
  by_cases h6 : c.toNat = 8
  · have hc : c = Char.ofNat 8 := by
      rw [char_eq_iff_toNat]
      simpa using h6
    subst hc; rfl
  by_cases h7 : c.toNat = 12
  · have hc : c = Char.ofNat 12 := by
      rw [char_eq_iff_toNat]
      simpa using h7
    subst hc; rfl
  by_cases h8 : 32 ≤ c.toNat ∧ c.toNat ≤ 126
  · have he : escapeChar c = [c] := by
      rw [escapeChar, if_neg h1, if_neg h2, if_neg h3, if_neg h4, if_neg h5, if_neg h6, if_neg h7,
        if_pos (by simpa using h8)]
    rw [he, List.cons_append, List.nil_append, parseJStringF_cons, if_neg h2, if_neg h1]
  by_cases h9 : c.toNat < 65536
  · have he : escapeChar c = '\\' :: 'u' :: hex4 c.toNat := by
      rw [escapeChar, if_neg h1, if_neg h2, if_neg h3, if_neg h4, if_neg h5, if_neg h6, if_neg h7,
        if_neg (by simpa using h8), if_pos h9]
    have hph := parseHex4_hex4 c.toNat h9
    rcases char_valid_toNat c with hv | hv
    all_goals
      rw [he, hex4]
      simp only [List.cons_append, List.nil_append]
      rw [parseJStringF_u _ _ _ _ _ _ (by rw [hph]; omega), hph, Char.ofNat_toNat]
  · have he : escapeChar c = '\\' :: 'u' :: hex4 (55296 + (c.toNat - 65536) / 1024) ++
        '\\' :: 'u' :: hex4 (56320 + (c.toNat - 65536) % 1024) := by
      rw [escapeChar, if_neg h1, if_neg h2, if_neg h3, if_neg h4, if_neg h5, if_neg h6, if_neg h7,
        if_neg (by simpa using h8), if_neg h9]
    have hbound : c.toNat < 1114112 := by
      rcases char_valid_toNat c with hv | hv <;> omega
    have hdiv : (c.toNat - 65536) / 1024 < 1024 := by omega
    have hmod : (c.toNat - 65536) % 1024 < 1024 := Nat.mod_lt _ (by omega)
    have hph1 := parseHex4_hex4 (55296 + (c.toNat - 65536) / 1024) (by omega)
    have hph2 := parseHex4_hex4 (56320 + (c.toNat - 65536) % 1024) (by omega)
    rw [he, hex4, hex4]
    simp only [List.cons_append, List.nil_append, List.append_assoc]
    rw [parseJStringF_u2 _ _ _ _ _ _ _ _ _ _ (by rw [hph1]; omega) (by rw [hph2]; omega),
      hph1, hph2]
    have harith : 65536 + (55296 + (c.toNat - 65536) / 1024 - 55296) * 1024 +
        (56320 + (c.toNat - 65536) % 1024 - 56320) = c.toNat := by
      have := Nat.div_add_mod (c.toNat - 65536) 1024
      omega
    rw [harith, Char.ofNat_toNat]

theorem parseJStringF_escape : ∀ fuel (s : List Char) (rest : List Char), s.length < fuel →
    parseJStringF fuel (escapeList s ++ '"' :: rest) = some (s, rest) := by
  intro fuel
  induction fuel with
  | zero => intro s rest h; omega
  | succ fuel ih =>
    intro s rest h
    cases s with
    | nil =>
      rw [escapeList, List.nil_append, parseJStringF_cons, if_pos rfl]
    | cons c cs =>
      rw [escapeList, List.append_assoc, parseJStringF_step,
        ih cs rest (by simp at h; omega)]

theorem escapeList_length (s : List Char) : s.length ≤ (escapeList s).length := by
  induction s with
  | nil => simp [escapeList]
  | cons c cs ih =>
    have h1 : 1 ≤ (escapeChar c).length := by
      rw [escapeChar]
      repeat' split
      all_goals simp [hex4]
    rw [escapeList]
    simp only [List.length_append, List.length_cons]
    omega

theorem parseJString_escape (s rest : List Char) :
    parseJString (escapeList s ++ '"' :: rest) = some (s, rest) := by
  rw [parseJString]
  apply parseJStringF_escape
  have := escapeList_length s
  simp only [List.length_append, List.length_cons]
  omega

theorem expects_nil_p (input : List Char) : expects [] input = some input := rfl

theorem expects_cons_same (c : Char) (cs input : List Char) :
    expects (c :: cs) (c :: input) = expects cs input := by
  simp [expects]

theorem chunkA_eq : chunkA =
    '\n' :: ' ' :: ' ' :: ' ' :: ' ' :: ' ' :: ' ' :: ' ' :: ' ' :: '"' :: [] := rfl

theorem chunkB_eq : chunkB =
    '"' :: ':' :: ' ' :: lb :: '\n' :: ' ' :: ' ' :: ' ' :: ' ' :: ' ' :: ' ' :: ' ' :: ' ' ::
      ' ' :: ' ' :: ' ' :: ' ' :: '"' :: 'n' :: 'o' :: 't' :: 'e' :: 's' :: '"' :: ':' :: ' ' ::
      '"' :: [] := rfl

theorem chunkC_eq : chunkC =
    ',' :: '\n' :: ' ' :: ' ' :: ' ' :: ' ' :: ' ' :: ' ' :: ' ' :: ' ' :: ' ' :: ' ' :: ' ' ::
      ' ' :: '"' :: 't' :: 'i' :: 't' :: 'l' :: 'e' :: '"' :: ':' :: ' ' :: '"' :: [] := rfl

theorem chunkD_eq : chunkD =
    '\n' :: ' ' :: ' ' :: ' ' :: ' ' :: ' ' :: ' ' :: ' ' :: ' ' :: rb :: [] := rfl

theorem chunkDocA_eq : chunkDocA =
    lb :: '\n' :: ' ' :: ' ' :: ' ' :: ' ' :: '"' :: 'c' :: 'h' :: 'a' :: 'p' :: 't' :: 'e' ::
      'r' :: 's' :: '"' :: ':' :: ' ' :: [] := rfl

theorem chunkDocB_eq : chunkDocB =
    ',' :: '\n' :: ' ' :: ' ' :: ' ' :: ' ' :: '"' :: 's' :: 'u' :: 'm' :: 'm' :: 'a' :: 'r' ::
      'y' :: '"' :: ':' :: ' ' :: '"' :: [] := rfl

theorem chunkDocC_eq : chunkDocC = '\n' :: rb :: [] := rfl

theorem parseEntry_rt (k : Int) (v : ExportChapterData) (rest : List Char) :
    parseEntry (entryChars k v ++ rest) = some ((k, v), rest) := by
  simp only [parseEntry, entryChars, chunkA_eq, chunkB_eq, chunkC_eq, chunkD_eq,
    List.append_assoc, List.cons_append, List.nil_append,
    expects_cons_same, expects_nil_p, parseKey_rt, parseJString_escape]

theorem entriesChars_cons (e e2 : Int × ExportChapterData) (es : List (Int × ExportChapterData)) :
    entriesChars (e :: e2 :: es) = entryChars e.1 e.2 ++ ',' :: entriesChars (e2 :: es) := rfl

theorem entryChars_length (k : Int) (v : ExportChapterData) : 1 ≤ (entryChars k v).length := by
  simp [entryChars, chunkA_eq]

theorem entriesChars_length : ∀ (e : Int × ExportChapterData) (es : List (Int × ExportChapterData)),
    (e :: es).length ≤ (entriesChars (e :: es)).length := by
  intro e es
  induction es generalizing e with
  | nil =>
    have := entryChars_length e.1 e.2
    simpa [entriesChars] using this
  | cons e2 es2 ih =>
    rw [entriesChars_cons]
    have h1 := entryChars_length e.1 e.2
    have h2 := ih e2
    simp only [List.length_append, List.length_cons] at h2 ⊢
    omega

theorem entriesChars_head (e : Int × ExportChapterData) (es : List (Int × ExportChapterData)) :
    (entriesChars (e :: es)).head? = some '\n' := by
  cases es with
  | nil => rfl
  | cons e2 es2 => rfl

theorem entriesChars_ne_nil (e : Int × ExportChapterData) (es : List (Int × ExportChapterData)) :
    entriesChars (e :: es) ≠ [] := by
  intro h
  have := entriesChars_head e es
  rw [h] at this
  exact absurd this (by decide)

theorem parseEntriesLoop_rt : ∀ (es : List (Int × ExportChapterData)) (fuel : Nat) (rest : List Char),
    es ≠ [] → es.length ≤ fuel → rest.head? ≠ some ',' →
    parseEntriesLoop fuel (entriesChars es ++ rest) = some (es, rest) := by
  intro es
  induction es with
  | nil => intro fuel rest h _ _; exact absurd rfl h
  | cons e es ih =>
    intro fuel rest _ hlen hc
    cases fuel with
    | zero => simp at hlen
    | succ f =>
      cases es with
      | nil =>
        rw [show entriesChars [e] = entryChars e.1 e.2 from rfl, parseEntriesLoop, parseEntry_rt]
        simp [hc]
      | cons e2 es2 =>
        have hlen2 : (e2 :: es2).length ≤ f := by
          simp only [List.length_cons] at hlen ⊢
          omega
        rw [entriesChars_cons, List.append_assoc, List.cons_append, parseEntriesLoop, parseEntry_rt]
        simp [ih f rest (by simp) hlen2 hc]

theorem parseChapters_rt (l : List (Int × ExportChapterData)) (trailer : List Char) :
    parseChapters (chaptersChars l ++ trailer) = some (sortByKey l, trailer) := by
  cases hs : sortByKey l with
  | nil =>
    simp only [chaptersChars, hs]
    simp [parseChapters]
  | cons e es =>
    simp only [chaptersChars, hs]
    simp only [List.append_assoc, List.cons_append, List.nil_append]
    have hne := entriesChars_ne_nil e es
    have hhd := entriesChars_head e es
    rw [parseChapters, if_pos (by simp), List.tail_cons,
      List.head?_append_of_ne_nil _ hne, hhd, if_neg (by decide)]
    have hlen : (e :: es).length ≤
        (entriesChars (e :: es) ++ '\n' :: (ind4 ++ rb :: trailer)).length := by
      have := entriesChars_length e es
      simp only [List.length_append, List.length_cons] at this ⊢
      omega
    rw [parseEntriesLoop_rt (e :: es) _ _ (by simp) hlen (by simp)]
    simp [ind4, expects_cons_same, expects_nil_p]

theorem parseInfo_rt (st : ExportData) :
    parseInfo (jsonDumps st) = some (sortByKey st.chapters, st.summary) := by
  rw [jsonDumps]
  simp only [parseInfo, chunkDocA_eq, chunkDocB_eq, chunkDocC_eq,
    List.append_assoc, List.cons_append, List.nil_append,
    expects_cons_same, expects_nil_p, parseChapters_rt, parseJString_escape]
  rfl

/-! ## Dictionary and operation lemmas -/

theorem lookupChapter_dictInsert (k : Int) (v : ExportChapterData)
    (l : List (Int × ExportChapterData)) :
    lookupChapter k (dictInsert k v l) = some v := by
  induction l with
  | nil => simp [dictInsert, lookupChapter]
  | cons p rest ih =>
    obtain ⟨k', v'⟩ := p
    by_cases h : k' = k
    · subst h
      simp [dictInsert, lookupChapter]
    · simp [dictInsert, lookupChapter, h, ih]

theorem chapterKeys_dictInsert_mem (a k : Int) (v : ExportChapterData)
    (l : List (Int × ExportChapterData)) :
    a ∈ chapterKeys (dictInsert k v l) ↔ a = k ∨ a ∈ chapterKeys l := by
  induction l with
  | nil => simp [dictInsert, chapterKeys]
  | cons p rest ih =>
    obtain ⟨k', v'⟩ := p
    by_cases h : k' = k
    · subst h
      simp [dictInsert, chapterKeys]
    · simp only [dictInsert, if_neg h, chapterKeys, List.map_cons, List.mem_cons] at ih ⊢
      rw [ih]
      tauto

theorem chapterKeys_dictInsert_nodup (k : Int) (v : ExportChapterData)
    (l : List (Int × ExportChapterData)) (h : (chapterKeys l).Nodup) :
    (chapterKeys (dictInsert k v l)).Nodup := by
  induction l with
  | nil => simp [dictInsert, chapterKeys]
  | cons p rest ih =>
    obtain ⟨k', v'⟩ := p
    simp only [chapterKeys, List.map_cons, List.nodup_cons] at h
    by_cases hk : k' = k
    · subst hk
      rw [dictInsert, if_pos rfl]
      simp only [chapterKeys, List.map_cons, List.nodup_cons]
      exact ⟨h.1, h.2⟩
    · rw [dictInsert, if_neg hk]
      simp only [chapterKeys, List.map_cons, List.nodup_cons]
      refine ⟨?_, ih h.2⟩
      intro hmem
      rcases (chapterKeys_dictInsert_mem k' k v rest).mp hmem with h' | h'
      · exact hk h'
      · exact h.1 h'

theorem add_series_texts_chapters (e : TextExporter) (fs : List Char → Option FsError)
    (st : ExportData) (sum : Option (List Char)) (dir : Option (List Char)) :
    (e.add_series_texts fs st sum dir).1.chapters = st.chapters := by
  rw [TextExporter.add_series_texts]
  split
  · rfl
  · dsimp only
    split <;> rfl

theorem add_chapter_details_chapters (e : TextExporter) (fs : List Char → Option FsError)
    (st : ExportData) (ch : ChapterInfo) (notes : List Char) (p : Nat)
    (dir : Option (List Char)) :
    (e.add_chapter_details fs st ch notes p dir).1.chapters =
      dictInsert ch.number ⟨ch.title, notes⟩ st.chapters := by
  rw [TextExporter.add_chapter_details]
  dsimp only
  split
  · rfl
  · split
    · rfl
    · split
      · rfl
      · split <;> rfl

theorem add_chapter_details_summary (e : TextExporter) (fs : List Char → Option FsError)
    (st : ExportData) (ch : ChapterInfo) (notes : List Char) (p : Nat)
    (dir : Option (List Char)) :
    (e.add_chapter_details fs st ch notes p dir).1.summary = st.summary := by
  rw [TextExporter.add_chapter_details]
  dsimp only
  split
  · rfl
  · split
    · rfl
    · split
      · rfl
      · split <;> rfl

theorem write_data_state (e : TextExporter) (fs : List Char → Option FsError)
    (st : ExportData) (dir : Option (List Char)) :
    (e.write_data fs st dir).1 = st := by
  rw [TextExporter.write_data]
  dsimp only
  split
  · rfl
  · split <;> rfl

theorem add_chapter_details_events (e : TextExporter) (st : ExportData) (ch : ChapterInfo)
    (notes : List Char) (p : Nat) (dir : Option (List Char)) (h : e.write_text = true) :
    (e.add_chapter_details noFail st ch notes p dir).2.1 =
      if notes = [] then
        [⟨pathJoin (resolveDir e dir) (formatZeroPad ch.number p ++ ("_title.txt".data)),
          ch.title ++ ['\n'], .overwrite⟩]
      else
        [⟨pathJoin (resolveDir e dir) (formatZeroPad ch.number p ++ ("_title.txt".data)),
          ch.title ++ ['\n'], .overwrite⟩,
         ⟨pathJoin (resolveDir e dir) (formatZeroPad ch.number p ++ ("_notes.txt".data)),
          notes ++ ['\n'], .overwrite⟩] := by
  rw [TextExporter.add_chapter_details, h]
  rw [if_neg (by decide : ¬((!true) = true))]
  dsimp only [aio_write, noFail]
  split <;> rfl

theorem add_series_texts_noop (e : TextExporter) (fs : List Char → Option FsError)
    (st : ExportData) (sum : Option (List Char)) (dir : Option (List Char))
    (h : strFalsy sum = true ∨ e.write_text = false) :
    e.add_series_texts fs st sum dir = (st, [], none) := by
  rw [TextExporter.add_series_texts]
  rcases h with h | h
  · rw [if_pos (by rw [h]; rfl)]
  · rw [if_pos (by rw [h]; simp)]

theorem aio_write_error_iff (fs : List Char → Option FsError) (target data : List Char)
    (mode : WriteMode) (endStr : List Char) (err : FsError) :
    aio_write fs target data mode endStr = .error err ↔ fs target = some err := by
  rw [aio_write]
  cases hfs : fs target <;> simp

/-- **C1** (counterexample): with export format `json` and the non-empty
summary `"hello"`, `add_series_texts` leaves the aggregate summary empty —
the early return fires because text-writing is disabled — contradicting
"sets the aggregate's summary field to that string, regardless of whether
the format enables text output". -/
theorem C1_counterexample :
    (TextExporter.add_series_texts ⟨.json, ".".data⟩ noFail initExportData
        (some ("hello".data)) none).1.summary ≠ "hello".data := by
  decide

/-- **C1** (amended): for formats that enable text output (`text`, `all`),
`add_series_texts` with a non-empty summary sets the aggregate summary to
that string (whatever the filesystem does); with format `json` it returns
immediately, leaving the aggregate untouched and writing nothing. -/
theorem C1_amended (e : TextExporter) (fs : List Char → Option FsError) (st : ExportData)
    (s : List Char) (dir : Option (List Char)) (hs : s ≠ []) :
    (e.write_text = true → (e.add_series_texts fs st (some s) dir).1.summary = s) ∧
    (e.export_format = .json → e.add_series_texts fs st (some s) dir = (st, [], none)) := by
  constructor
  · intro hw
    rw [TextExporter.add_series_texts,
      if_neg (by simp [strFalsy, hw, List.isEmpty_iff, hs])]
    dsimp only
    split <;> rfl
  · intro hf
    have hw : e.write_text = false := by rw [TextExporter.write_text, hf]
    exact add_series_texts_noop e fs st (some s) dir (Or.inr hw)

/-- Witness for C1: concrete instantiations at formats `all` and `json`. -/
theorem C1_witness :
    (TextExporter.add_series_texts ⟨.all, ".".data⟩ noFail initExportData
        (some ("s".data)) none).1.summary = "s".data ∧
    TextExporter.add_series_texts ⟨.json, ".".data⟩ noFail initExportData
        (some ("s".data)) none = (initExportData, [], none) :=
  ⟨(C1_amended ⟨.all, ".".data⟩ noFail initExportData ("s".data) none (by decide)).1 rfl,
   (C1_amended ⟨.json, ".".data⟩ noFail initExportData ("s".data) none (by decide)).2 rfl⟩

theorem jsonDumps_getLast (st : ExportData) : (jsonDumps st).getLast? = some rb := by
  rw [show jsonDumps st =
      (chunkDocA ++ chaptersChars st.chapters ++ chunkDocB ++ escapeList st.summary ++
        ['"', '\n']) ++ [rb] from by
    simp [jsonDumps, chunkDocC]]
  rw [List.getLast?_concat]

/-- **C2** (counterexample): with chapters numbered 10 and 2, the content
written by `write_data` orders the keys numerically (`"2"` before `"10"`),
not lexicographically (`"10"` before `"2"` as strings), so the payload is
not the spec-worded lexicographic serialization. -/
theorem C2_counterexample :
    (TextExporter.write_data ⟨.json, "d".data⟩ noFail
        ⟨[(10, ⟨"t".data, []⟩), (2, ⟨"u".data, []⟩)], "s".data⟩ none).2.1.map
          WriteEvent.payload ≠
      [jsonDumpsSpecLex ⟨[(10, ⟨"t".data, []⟩), (2, ⟨"u".data, []⟩)], "s".data⟩] := by
  decide

/-- **C2** (amended): if json-writing is disabled `write_data` is a no-op;
otherwise it performs exactly one overwriting write to
`<directory-or-default>/info.json` whose payload is
`json.dumps(aggregate, sort_keys=True, indent=4)` — top-level and record
keys in lexicographic order, chapter-number keys in increasing numeric
order, stringified — with no trailing newline (the content ends with the
closing brace). -/
theorem C2_amended (e : TextExporter) (st : ExportData) (dir : Option (List Char)) :
    (e.write_json = false → ∀ fs, e.write_data fs st dir = (st, [], none)) ∧
    (e.write_json = true → e.write_data noFail st dir =
      (st, [⟨pathJoin (resolveDir e dir) ("info.json".data), jsonDumps st, .overwrite⟩],
        none)) ∧
    (jsonDumps st).getLast? = some rb := by
  refine ⟨?_, ?_, jsonDumps_getLast st⟩
  · intro h fs
    rw [TextExporter.write_data, if_pos (by rw [h]; rfl)]
  · intro h
    rw [TextExporter.write_data, if_neg (by rw [h]; decide)]
    dsimp only [aio_write, noFail]
    simp

/-- Witness for C2: concrete instantiations at formats `text` (no-op) and
`json` (single `info.json` write). -/
theorem C2_witness :
    TextExporter.write_data ⟨.text, "d".data⟩ noFail initExportData none =
      (initExportData, [], none) ∧
    TextExporter.write_data ⟨.json, "d".data⟩ noFail initExportData none =
      (initExportData,
        [⟨pathJoin ("d".data) ("info.json".data), jsonDumps initExportData, .overwrite⟩],
        none) :=
  ⟨(C2_amended ⟨.text, "d".data⟩ initExportData none).1 rfl noFail,
   (C2_amended ⟨.json, "d".data⟩ initExportData none).2.1 rfl⟩

/-- **C3**: `add_chapter_details` always records `{title, notes}` under the
chapter's number; with text-writing disabled it returns right after the
record update, writing nothing; with text-writing enabled it writes the
title to `<padded>_title.txt` and additionally `<padded>_notes.txt` exactly
when notes is non-empty. -/
theorem C3_record_and_files (e : TextExporter) (st : ExportData) (ch : ChapterInfo)
    (notes : List Char) (p : Nat) (dir : Option (List Char)) :
    (∀ fs, (e.add_chapter_details fs st ch notes p dir).1.chapters =
      dictInsert ch.number ⟨ch.title, notes⟩ st.chapters) ∧
    (e.write_text = false → ∀ fs, e.add_chapter_details fs st ch notes p dir =
      ({ st with chapters := dictInsert ch.number ⟨ch.title, notes⟩ st.chapters }, [], none)) ∧
    (e.write_text = true → (e.add_chapter_details noFail st ch notes p dir).2.1 =
      if notes = [] then
        [⟨pathJoin (resolveDir e dir) (formatZeroPad ch.number p ++ ("_title.txt".data)),
          ch.title ++ ['\n'], .overwrite⟩]
      else
        [⟨pathJoin (resolveDir e dir) (formatZeroPad ch.number p ++ ("_title.txt".data)),
          ch.title ++ ['\n'], .overwrite⟩,
         ⟨pathJoin (resolveDir e dir) (formatZeroPad ch.number p ++ ("_notes.txt".data)),
          notes ++ ['\n'], .overwrite⟩]) := by
  refine ⟨fun fs => add_chapter_details_chapters e fs st ch notes p dir, ?_,
    fun h => add_chapter_details_events e st ch notes p dir h⟩
  intro h fs
  rw [TextExporter.add_chapter_details, if_pos (by rw [h]; rfl)]

/-- Witness for C3: with format `json` the chapter is recorded but nothing
is written; with format `text` and empty notes only the title file is
written. -/
theorem C3_witness :
    TextExporter.add_chapter_details ⟨.json, "d".data⟩ noFail initExportData ⟨5, "t".data⟩
        ("n".data) 0 none =
      ({ initExportData with chapters := dictInsert 5 ⟨"t".data, "n".data⟩ [] }, [], none) ∧
    (TextExporter.add_chapter_details ⟨.text, "d".data⟩ noFail initExportData ⟨5, "t".data⟩
        [] 0 none).2.1 =
      [⟨pathJoin ("d".data) (formatZeroPad 5 0 ++ ("_title.txt".data)),
        "t".data ++ ['\n'], .overwrite⟩] := by
  constructor
  · exact (C3_record_and_files ⟨.json, "d".data⟩ initExportData ⟨5, "t".data⟩ ("n".data)
      0 none).2.1 rfl noFail
  · have h := (C3_record_and_files ⟨.text, "d".data⟩ initExportData ⟨5, "t".data⟩ []
      0 none).2.2 rfl
    simpa using h

/-- **C4**: the chapters mapping never acquires duplicate keys — a later
add for the same number fully replaces the record (no merge: the stored
record is exactly the new `{title, notes}`), and key-uniqueness is
preserved by all three operations. -/
theorem C4_overwrite_invariant (k : Int) (v : ExportChapterData)
    (l : List (Int × ExportChapterData)) (e : TextExporter)
    (fs : List Char → Option FsError) (st : ExportData) (ch : ChapterInfo)
    (notes : List Char) (p : Nat) (sum : Option (List Char)) (dir : Option (List Char)) :
    lookupChapter k (dictInsert k v l) = some v ∧
    ((chapterKeys l).Nodup → (chapterKeys (dictInsert k v l)).Nodup) ∧
    lookupChapter ch.number (e.add_chapter_details fs st ch notes p dir).1.chapters =
      some ⟨ch.title, notes⟩ ∧
    ((chapterKeys st.chapters).Nodup →
      (chapterKeys (e.add_chapter_details fs st ch notes p dir).1.chapters).Nodup ∧
      (chapterKeys (e.add_series_texts fs st sum dir).1.chapters).Nodup ∧
      (chapterKeys (e.write_data fs st dir).1.chapters).Nodup) := by
  refine ⟨lookupChapter_dictInsert k v l, fun h => chapterKeys_dictInsert_nodup k v l h,
    ?_, fun h => ⟨?_, ?_, ?_⟩⟩
  · rw [add_chapter_details_chapters]
    exact lookupChapter_dictInsert _ _ _
  · rw [add_chapter_details_chapters]
    exact chapterKeys_dictInsert_nodup _ _ _ h
  · rw [add_series_texts_chapters]
    exact h
  · rw [write_data_state]
    exact h

/-- Witness for C4: re-adding chapter 5 replaces its record and keeps the
key set duplicate-free. -/
theorem C4_witness :
    lookupChapter 5 (dictInsert 5 ⟨"t".data, "b".data⟩ [(5, ⟨"t".data, "a".data⟩)]) =
      some ⟨"t".data, "b".data⟩ ∧
    (chapterKeys (dictInsert 5 ⟨"t".data, "b".data⟩ [(5, ⟨"t".data, "a".data⟩)])).Nodup := by
  have h := C4_overwrite_invariant 5 ⟨"t".data, "b".data⟩ [(5, ⟨"t".data, "a".data⟩)]
    ⟨.all, "d".data⟩ noFail initExportData ⟨5, "t".data⟩ ("b".data) 0 none none
  exact ⟨h.1, h.2.1 (by decide)⟩

/-- **C5**: `write_data` never mutates the aggregate, so calling it twice
without intervening mutation yields identical results — in particular
byte-identical `info.json` payloads. -/
theorem C5_idempotent (e : TextExporter) (fs : List Char → Option FsError)
    (st : ExportData) (dir : Option (List Char)) :
    (e.write_data fs st dir).1 = st ∧
    e.write_data fs ((e.write_data fs st dir).1) dir = e.write_data fs st dir := by
  refine ⟨write_data_state e fs st dir, ?_⟩
  rw [write_data_state]

/-- **C6**: parsing the `info.json` content produced by `write_data`
recovers exactly the chapter records and the summary stored in the
aggregate — the parsed list is the key-sorted permutation of the stored
chapters (so the recovered set is independent of insertion order), and the
summary comes back verbatim. -/
theorem C6_roundtrip (st : ExportData) (e : TextExporter) (dir : Option (List Char)) :
    parseInfo (jsonDumps st) = some (sortByKey st.chapters, st.summary) ∧
    List.Perm (sortByKey st.chapters) st.chapters ∧
    (e.write_json = true →
      (e.write_data noFail st dir).2.1.map (fun ev => parseInfo ev.payload) =
        [some (sortByKey st.chapters, st.summary)]) := by
  refine ⟨parseInfo_rt st, List.perm_insertionSort _ _, ?_⟩
  intro h
  rw [TextExporter.write_data, if_neg (by rw [h]; decide)]
  dsimp only [aio_write, noFail]
  simp [parseInfo_rt]

/-- Witness for C6: a concrete aggregate whose serialized form parses back
to its own chapters and summary. -/
theorem C6_witness :
    parseInfo (jsonDumps ⟨[(2, ⟨"t".data, "n".data⟩)], "s".data⟩) =
      some ([(2, ⟨"t".data, "n".data⟩)], "s".data) := by
  have h := (C6_roundtrip ⟨[(2, ⟨"t".data, "n".data⟩)], "s".data⟩ ⟨.json, "d".data⟩ none).1
  rw [h]
  decide

/-- **C7**: the filename prefix is the decimal representation of the
chapter number left-filled with zeros to the configured width; width 0
adds no padding, so the prefix is the minimal decimal representation
(non-empty, decoding back to the number, no leading zero); in particular
`7` padded to 3 is `007` and unpadded is `7`; and the title write of
`add_chapter_details` uses exactly this prefix. -/
theorem C7_zero_padding (n p : Nat) :
    formatZeroPad (n : Int) p =
      List.replicate (p - (natToChars n).length) '0' ++ natToChars n ∧
    formatZeroPad (n : Int) 0 = natToChars n ∧
    digitsToNat (natToChars n) = n ∧
    (n ≠ 0 → ∀ c, (natToChars n).head? = some c → c ≠ '0') ∧
    formatZeroPad 7 3 = "007".data ∧
    formatZeroPad 7 0 = "7".data ∧
    (∀ (d : List Char) (st : ExportData) (ch : ChapterInfo) (notes : List Char)
      (dir : Option (List Char)),
      (TextExporter.add_chapter_details ⟨.text, d⟩ noFail st ch notes p dir).2.1.head? =
        some ⟨pathJoin (resolveDir ⟨.text, d⟩ dir)
          (formatZeroPad ch.number p ++ ("_title.txt".data)),
          ch.title ++ ['\n'], .overwrite⟩) := by
  have htn : ((n : Int)).toNat = n := by omega
  obtain ⟨_, _, hval, hhead⟩ := natToChars_spec n
  refine ⟨?_, ?_, hval, fun hn => hhead hn, by decide, by decide, ?_⟩
  · rw [formatZeroPad, if_neg (by omega), htn, leftPadZeros]
  · rw [formatZeroPad, if_neg (by omega), htn, leftPadZeros]
    simp
  · intro d st ch notes dir
    rw [add_chapter_details_events ⟨.text, d⟩ st ch notes p dir rfl]
    split <;> rfl

/-- Witness for C7: the padding facts instantiated at number 7 and
width 3. -/
theorem C7_witness :
    formatZeroPad 7 3 = "007".data ∧ formatZeroPad 7 0 = "7".data ∧
    (∀ c, (natToChars 7).head? = some c → c ≠ '0') := by
  have h := C7_zero_padding 7 3
  exact ⟨h.2.2.2.2.1, h.2.2.2.2.2.1, h.2.2.2.1 (by decide)⟩

/-- **C8**: with an empty or absent summary, or with text-writing
disabled, `add_series_texts` is a total no-op: the aggregate is unchanged,
no write is attempted (under any filesystem), and no error is produced. -/
theorem C8_noop (e : TextExporter) (fs : List Char → Option FsError) (st : ExportData)
    (sum : Option (List Char)) (dir : Option (List Char))
    (h : strFalsy sum = true ∨ e.write_text = false) :
    e.add_series_texts fs st sum dir = (st, [], none) :=
  add_series_texts_noop e fs st sum dir h

/-- Witness for C8: an absent summary with format `all` is a no-op. -/
theorem C8_witness :
    TextExporter.add_series_texts ⟨.all, "d".data⟩ noFail initExportData none none =
      (initExportData, [], none) :=
  C8_noop ⟨.all, "d".data⟩ noFail initExportData none none (Or.inl rfl)

/-- **C9**: `_aio_write` raises exactly the filesystem's error, untranslated
(it fails with `err` iff the filesystem reports `err` for that target); and
when `add_chapter_details` ends in an error, the error came from one of its
two target files and the chapter record inserted before the write is still
present in the aggregate — no rollback. -/
theorem C9_propagation (fs : List Char → Option FsError) (target data : List Char)
    (mode : WriteMode) (endStr : List Char) (err : FsError) (e : TextExporter)
    (st : ExportData) (ch : ChapterInfo) (notes : List Char) (p : Nat)
    (dir : Option (List Char)) :
    (aio_write fs target data mode endStr = .error err ↔ fs target = some err) ∧
    ((e.add_chapter_details fs st ch notes p dir).2.2 = some err →
      (fs (pathJoin (resolveDir e dir) (formatZeroPad ch.number p ++ ("_title.txt".data))) =
          some err ∨
       fs (pathJoin (resolveDir e dir) (formatZeroPad ch.number p ++ ("_notes.txt".data))) =
          some err) ∧
      (e.add_chapter_details fs st ch notes p dir).1.chapters =
        dictInsert ch.number ⟨ch.title, notes⟩ st.chapters) := by
  refine ⟨aio_write_error_iff fs target data mode endStr err, ?_⟩
  intro herr
  refine ⟨?_, add_chapter_details_chapters e fs st ch notes p dir⟩
  rw [TextExporter.add_chapter_details] at herr
  dsimp only at herr
  split at herr
  · simp at herr
  · split at herr
    · rename_i e1 heq
      simp only at herr
      rw [← herr]
      exact Or.inl ((aio_write_error_iff _ _ _ _ _ _).mp heq)
    · split at herr
      · simp at herr
      · split at herr
        · rename_i heq2
          simp only at herr
          rw [← herr]
          exact Or.inr ((aio_write_error_iff _ _ _ _ _ _).mp heq2)
        · simp at herr

/-- A filesystem that rejects exactly the title file of chapter 7 with a
permission error. -/
def c9fs : List Char → Option FsError := fun t =>
  if t = pathJoin ("d".data) (formatZeroPad 7 0 ++ ("_title.txt".data)) then
    some ⟨t, "EACCES".data⟩
  else none

/-- Witness for C9: under `c9fs` the chapter-7 add fails with the
filesystem's own error, yet the record is already in the aggregate. -/
theorem C9_witness :
    (c9fs (pathJoin ("d".data) (formatZeroPad 7 0 ++ ("_title.txt".data))) =
        some ⟨pathJoin ("d".data) (formatZeroPad 7 0 ++ ("_title.txt".data)),
          "EACCES".data⟩ ∨
     c9fs (pathJoin ("d".data) (formatZeroPad 7 0 ++ ("_notes.txt".data))) =
        some ⟨pathJoin ("d".data) (formatZeroPad 7 0 ++ ("_title.txt".data)),
          "EACCES".data⟩) ∧
    (TextExporter.add_chapter_details ⟨.text, "d".data⟩ c9fs initExportData ⟨7, "t".data⟩
        ("n".data) 0 none).1.chapters = dictInsert 7 ⟨"t".data, "n".data⟩ [] := by
  have h := (C9_propagation c9fs [] [] .overwrite []
      ⟨pathJoin ("d".data) (formatZeroPad 7 0 ++ ("_title.txt".data)), "EACCES".data⟩
      ⟨.text, "d".data⟩ initExportData ⟨7, "t".data⟩ ("n".data) 0 none).2 (by decide)
  exact ⟨h.1, h.2⟩

/-- **C10**: each operation leaves the rest of the state alone —
`add_series_texts` never touches the chapters mapping,
`add_chapter_details` never touches the summary, and `write_data` never
touches the aggregate at all (the configuration, held in the separate
immutable `TextExporter` value, is never modified after construction). -/
theorem C10_frame (e : TextExporter) (fs : List Char → Option FsError) (st : ExportData)
    (sum : Option (List Char)) (dir dir2 dir3 : Option (List Char)) (ch : ChapterInfo)
    (notes : List Char) (p : Nat) :
    (e.add_series_texts fs st sum dir).1.chapters = st.chapters ∧
    (e.add_chapter_details fs st ch notes p dir2).1.summary = st.summary ∧
    (e.write_data fs st dir3).1 = st :=
  ⟨add_series_texts_chapters e fs st sum dir,
   add_chapter_details_summary e fs st ch notes p dir2,
   write_data_state e fs st dir3⟩
